import Mathlib

/-!
# Verification of `backend/server/common/rest.py` (czbiohub/cellxgene)

A shallow embedding of the request-handling logic of
`src/backend/server/common/rest.py`, together with theorems settling the
frozen claims about it.  Python strings are modelled as Lean `String`
(lists of characters), Python dicts that preserve insertion order are
modelled as association lists, floats produced by Python's `float()` are
modelled as rationals, and the filesystem visible to the handlers is
modelled as a list of file paths.
-/

set_option autoImplicit false

namespace Cellxgene

/-! ## Python string primitives -/

/-- Python `str.split(sep)` for a one-character separator: splits on every
occurrence, keeping empty segments (`"".split(sep) == [""]`). -/
def splitOnChar (sep : Char) : List Char → List (List Char)
  | [] => [[]]
  | c :: cs =>
    match splitOnChar sep cs with
    | [] => [[]]
    | r :: rs => if c = sep then [] :: r :: rs else (c :: r) :: rs

/-- `pySplit s sep` is Python `s.split(sep)` for a one-character separator. -/
def pySplit (s : String) (sep : Char) : List String :=
  (splitOnChar sep s.data).map String.mk

/-- Value of a hexadecimal digit character, if it is one. -/
def hexDigit? (c : Char) : Option Nat :=
  if '0' ≤ c ∧ c ≤ '9' then some (c.toNat - 48)
  else if 'a' ≤ c ∧ c ≤ 'f' then some (c.toNat - 87)
  else if 'A' ≤ c ∧ c ≤ 'F' then some (c.toNat - 55)
  else none

/-- Percent-decoding pass of `werkzeug.urls.url_unquote`: each `%XY` hex
escape becomes the character with code `16*X + Y`; malformed escapes are
left untouched.  (The multi-byte UTF-8 recombination that werkzeug layers
on top is not modelled; no claim exercises it.) -/
def unquoteChars : List Char → List Char
  | [] => []
  | '%' :: a :: b :: rest =>
    match hexDigit? a, hexDigit? b with
    | some hi, some lo => Char.ofNat (16 * hi + lo) :: unquoteChars rest
    | _, _ => '%' :: unquoteChars (a :: b :: rest)
  | c :: rest => c :: unquoteChars rest

/-- `url_unquote` on a whole string. -/
def urlUnquote (s : String) : String := String.mk (unquoteChars s.data)

/-- Numeric value of a nonempty list of decimal digits, `none` otherwise. -/
def digitsVal? (l : List Char) : Option Nat :=
  if l = [] then none
  else if l.all Char.isDigit then
    some (l.foldl (fun a c => 10 * a + (c.toNat - 48)) 0)
  else none

/-- Mantissa of a Python float literal: decimal digits with at most one
point, at least one digit overall (`"1000"`, `"3.5"`, `".5"`, `"5."`). -/
def parseMantissa? (l : List Char) : Option ℚ :=
  match splitOnChar '.' l with
  | [ip] => (digitsVal? ip).map (fun n => (n : ℚ))
  | [ip, fp] =>
    if ip.all Char.isDigit ∧ fp.all Char.isDigit ∧ ¬(ip = [] ∧ fp = []) then
      some ((ip.foldl (fun a c => 10 * a + (c.toNat - 48)) 0 : ℚ)
            + (fp.foldl (fun a c => 10 * a + (c.toNat - 48)) 0 : ℚ) / (10 : ℚ) ^ fp.length)
    else none
  | _ => none

/-- Split a float literal at its exponent marker `e`/`E`, if any. -/
def splitExp : List Char → List Char × Option (List Char)
  | [] => ([], none)
  | c :: rest =>
    if c = 'e' ∨ c = 'E' then ([], some rest)
    else
      match splitExp rest with
      | (m, e) => (c :: m, e)

/-- Optionally signed decimal integer (the exponent of a float literal). -/
def parseExp? : List Char → Option Int
  | '-' :: rest => (digitsVal? rest).map (fun n => -(n : Int))
  | '+' :: rest => (digitsVal? rest).map (fun n => (n : Int))
  | l => (digitsVal? l).map (fun n => (n : Int))

/-- Optionally signed mantissa. -/
def parseSignedMantissa? : List Char → Option ℚ
  | '-' :: rest => (parseMantissa? rest).map Neg.neg
  | '+' :: rest => parseMantissa? rest
  | l => parseMantissa? l

/-- Python's builtin `float(s)` on ordinary decimal literals, with the
value modelled exactly as a rational.  Raising `ValueError` is modelled as
`none`.  Exotic accepted forms (`inf`, `nan`, underscores, surrounding
whitespace) are not modelled; no claim exercises them. -/
def parsePyFloat? (s : String) : Option ℚ :=
  match splitExp s.data with
  | (m, none) => parseSignedMantissa? m
  | (m, some e) =>
    match parseSignedMantissa? m, parseExp? e with
    | some mv, some ev => some (mv * (10 : ℚ) ^ ev)
    | _, _ => none

/-! ## The filter parser (`_query_parameter_to_filter`)

The per-field working dict `current` of the Python code — keys among
`name`, `values`, `min`, `max`, with `name` always present — is modelled
by `FieldFilter`, an `Option` field being `some` exactly when the Python
dict holds that key.  Each per-axis dict (insertion-ordered, keyed by the
already-unquoted field name) is an association list of `FieldFilter`s. -/

/-- One field's accumulated filter state / output predicate. -/
structure FieldFilter where
  name : String
  values : Option (List String)
  min : Option ℚ
  max : Option ℚ
deriving DecidableEq, Repr

/-- `len(current)`: the number of keys of the Python working dict. -/
def FieldFilter.size (f : FieldFilter) : Nat :=
  1 + (if f.values.isSome then 1 else 0) + (if f.min.isSome then 1 else 0)
    + (if f.max.isSome then 1 else 0)

/-- The mutable `filters = {"obs": {}, "var": {}}` of the parser. -/
structure ParseState where
  obs : List FieldFilter
  var : List FieldFilter
deriving DecidableEq, Repr

/-- `filters[axis].setdefault(name, {"name": name})`: the existing entry,
or a fresh one holding only the name. -/
def getCurrent (l : List FieldFilter) (n : String) : FieldFilter :=
  match l.find? (fun f => f.name == n) with
  | some f => f
  | none => ⟨n, none, none, none⟩

/-- Write the (possibly fresh) entry back: replace in place when the name
is present, append otherwise — Python dict insertion-order semantics. -/
def setCurrent (l : List FieldFilter) (n : String) (f : FieldFilter) : List FieldFilter :=
  if (l.find? (fun g => g.name == n)).isSome then
    l.map (fun g => if g.name == n then f else g)
  else l ++ [f]

/-- `current["min"] = float(min)` guarded by the `*` wildcard; `none`
models the uncaught-then-converted `ValueError` of `float()`. -/
def applyRangeMin (cur : FieldFilter) (mn : String) : Option FieldFilter :=
  if mn = "*" then some cur
  else match parsePyFloat? mn with
    | some q => some { cur with min := some q }
    | none => none

/-- `current["max"] = float(max)` guarded by the `*` wildcard. -/
def applyRangeMax (cur : FieldFilter) (mx : String) : Option FieldFilter :=
  if mx = "*" then some cur
  else match parsePyFloat? mx with
    | some q => some { cur with max := some q }
    | none => none

/-- The body of the parser's loop that interprets one parameter value
against the field's current entry: one comma-segment appends to the
value-set (rejecting a mix with an existing range), two segments declare
a range (rejecting any existing content, wildcard endpoints, and
non-numeric endpoints), anything else is malformed. -/
def applySegments (cur : FieldFilter) (value : String) : Except String FieldFilter :=
  match pySplit value ',' with
  | [v] =>
    if cur.min.isSome || cur.max.isSome then
      .error "do not mix range and value filters"
    else
      .ok { cur with values := some ((cur.values.getD []) ++ [urlUnquote v]) }
  | [mn, mx] =>
    if cur.size > 1 then .error "duplicate range specification"
    else
      match applyRangeMin cur (urlUnquote mn) with
      | none => .error "could not convert string to float"
      | some c1 =>
        match applyRangeMax c1 (urlUnquote mx) with
        | none => .error "could not convert string to float"
        | some c2 =>
          if c2.size < 2 then
            .error "must specify at least min or max in range filter"
          else .ok c2
  | _ => .error "badly formated filter value"

/-- One iteration of the parser's `for key, value in args.items(multi=True)`
loop: split the key on `:` (a `ValueError` from unpacking is converted to
`FilterError`), check the axis, unquote the name, and update that field's
entry. -/
def stepParam (st : ParseState) (kv : String × String) : Except String ParseState :=
  match pySplit kv.1 ':' with
  | [axis, name0] =>
    if axis = "obs" then
      let n := urlUnquote name0
      match applySegments (getCurrent st.obs n) kv.2 with
      | .ok f => .ok { st with obs := setCurrent st.obs n f }
      | .error e => .error e
    else if axis = "var" then
      let n := urlUnquote name0
      match applySegments (getCurrent st.var n) kv.2 with
      | .ok f => .ok { st with var := setCurrent st.var n f }
      | .error e => .error e
    else .error "unknown filter axis"
  | _ => .error "values to unpack"

/-- The returned filter document: an axis key is present exactly when at
least one predicate accumulated for it, and then holds the
`annotation_value` list in insertion order. -/
structure FilterSpec where
  obs : Option (List FieldFilter)
  var : Option (List FieldFilter)
deriving DecidableEq, Repr

/-- The parser's `for key, value in args.items(multi=True)` loop: run the
body over the remaining parameters in order, stopping at the first raised
error. -/
def runParams (st : ParseState) : List (String × String) → Except String ParseState
  | [] => .ok st
  | p :: rest =>
    match stepParam st p with
    | .ok st2 => runParams st2 rest
    | .error e => .error e

/-- `_query_parameter_to_filter(args)`: run the loop over the ordered
multimap of query parameters, then assemble the result dict.
`Except.error` models raising `FilterError` (every error path of the
Python function, including converted `ValueError`s, raises exactly
`FilterError`). -/
def queryParameterToFilter (args : List (String × String)) : Except String FilterSpec :=
  match runParams ⟨[], []⟩ args with
  | .error e => .error e
  | .ok st =>
    .ok { obs := if st.obs.length > 0 then some st.obs else none,
          var := if st.var.length > 0 then some st.var else none }

/-! ## Differential expression (`diffexp_obs_post`) -/

/-- Modelled from the spec: the mode enum `DiffExpMode` is imported from
`backend.common.constants`, which is not under `src/`.  The spec describes
a top-N mode ("Compute top-N differential-expression features") and an
unimplemented var-filter mode ("varFilter not enabled"). -/
inductive DiffExpMode
  | topN
  | varFilter
deriving DecidableEq, Repr

/-- Modelled from the spec: `DiffExpMode(args["mode"])` — constructing the
enum from the request's mode string; an unrecognised string raises
`ValueError` (modelled `none`), which the handler does not catch. -/
def parseDiffExpMode : String → Option DiffExpMode
  | "topN" => some .topN
  | "varFilter" => some .varFilter
  | _ => none

/-- The JSON value of `args["set1"]` / `args["set2"]`: `filter = none`
models a dict without a `"filter"` key; the inner `Option` distinguishes
a JSON `null` filter from a filter object, the latter carried as its list
of axis keys (all the handler inspects of it). -/
structure SetArg where
  filter : Option (Option (List String))
deriving DecidableEq, Repr

/-- The JSON body of a diff-exp request, reduced to the fields the handler
reads; an absent field is `none`, and `varFilterPresent` is
`"varFilter" in args`. -/
structure DiffexpBody where
  mode : Option String
  varFilterPresent : Bool
  set1 : Option SetArg
  set2 : Option SetArg
  count : Option Int
deriving DecidableEq, Repr

/-- `args.get("setK", {"filter": {}})["filter"]`: an absent `setK`
defaults to `{"filter": {}}`, whose `"filter"` value is the empty filter
object (no axis keys); a present `setK` lacking the `"filter"` key raises
`KeyError`, modelled as `Except.error` (the handler catches it). -/
def getSetFilter : Option SetArg → Except String (Option (List String))
  | none => .ok (some [])
  | some a =>
    match a.filter with
    | none => .error "KeyError: filter"
    | some v => .ok v

/-- Outcome of `diffexp_obs_post`: a 501 abort, a 400 abort, an exception
escaping the `except (KeyError, TypeError)` clause, or the invocation of
the Analysis Engine's `diffexp_topN` with the two set filters and the
count. -/
inductive DiffexpResult
  | notImplemented (msg : String)
  | badRequest (msg : String)
  | uncaught (msg : String)
  | computed (set1Keys set2Keys : List String) (count : Int)
deriving DecidableEq, Repr

/-- `diffexp_obs_post(data, data_adaptor)`.  `enabled` is
`data_adaptor.dataset_config.diffexp__enable`.  The `Axis.VAR in filter`
membership test is string-key membership of `"var"` (`Axis` is a
string-valued enum: `schema_get_helper` indexes string-keyed dicts with
its members). -/
def diffexp_obs_post (enabled : Bool) (args : DiffexpBody) : DiffexpResult :=
  if !enabled then .notImplemented "diffexp disabled"
  else
    match args.mode with
    | none => .badRequest "KeyError: mode"
    | some m =>
      match parseDiffExpMode m with
      | none => .uncaught "ValueError: bad DiffExpMode"
      | some mode =>
        if mode == DiffExpMode.varFilter || args.varFilterPresent then
          .notImplemented "varFilter not enabled"
        else
          match getSetFilter args.set1 with
          | .error e => .badRequest e
          | .ok set1Filter =>
            match getSetFilter args.set2 with
            | .error e => .badRequest e
            | .ok set2Filter =>
              if set1Filter.isNone || set2Filter.isNone || args.count.isNone then
                .badRequest "missing required parameter"
              else if (set1Filter.getD []).contains "var" || (set2Filter.getD []).contains "var" then
                .badRequest "var axis filter not enabled"
              else
                .computed (set1Filter.getD []) (set2Filter.getD []) (args.count.getD 0)

/-! ## Schema layers (`schema_get_helper`) -/

/-- The base dataset as `schema_get_helper` reads it when building the
layer list: whether `data.raw` is not `None`, and the insertion-ordered
keys of `data.layers`.  (The rest of the schema document — annotation
columns and embedding layouts — is orthogonal to the layer claims.) -/
structure DatasetLayers where
  raw : Bool
  layerKeys : List String
deriving DecidableEq, Repr

/-- The `layers` list computed by `schema_get_helper`: `.raw` is
prepended when the dataset has a raw matrix, and then `"X"` is prepended
when not already among the accumulated layer names. -/
def schema_layers (d : DatasetLayers) : List String :=
  let layers := if d.raw then ".raw" :: d.layerKeys else d.layerKeys
  if !(layers.contains "X") then "X" :: layers else layers

/-! ## Filesystem model for the per-user store -/

/-- The filesystem visible to the handlers: the list of existing file
paths. -/
abbrev FileSys := List String

/-- `os.path.exists(p)` -/
def pathExists (fs : FileSys) (p : String) : Bool := fs.contains p

/-- `os.remove(p)`: removes the file, raising (`Except.error`) when it
does not exist. -/
def osRemove (fs : FileSys) (p : String) : Except String FileSys :=
  if fs.contains p then .ok (fs.filter (fun q => q != p))
  else .error "FileNotFoundError"

/-- Creating or overwriting a file (`DataFrame.to_csv(path)`): the path
exists afterwards. -/
def writeFile (fs : FileSys) (p : String) : FileSys :=
  if fs.contains p then fs else fs ++ [p]

/-- The `if os.path.exists(p): os.remove(p)` pattern used by
`delete_obsm_put`. -/
def removeIfExists (fs : FileSys) (p : String) : FileSys :=
  if pathExists fs p then fs.filter (fun q => q != p) else fs

/-! ## Embedding deletion (`delete_obsm_put`) -/

/-- Coordinate artifact `f"{userID}/emb/{embName}.p"`. -/
def emb_path (userID embName : String) : String :=
  userID ++ "/emb/" ++ embName ++ ".p"

/-- Neighbor-graph artifact `f"{userID}/nnm/{embName}.p"`. -/
def nnm_path (userID embName : String) : String :=
  userID ++ "/nnm/" ++ embName ++ ".p"

/-- Parameter artifact `f"{userID}/params/{embName}.p"`. -/
def params_path (userID embName : String) : String :=
  userID ++ "/params/" ++ embName ++ ".p"

/-- The per-name body of `delete_obsm_put`'s loop: each of the three
artifacts is removed when present, each behind its own existence guard. -/
def deleteEmbArtifacts (userID : String) (fs : FileSys) (embName : String) : FileSys :=
  removeIfExists
    (removeIfExists
      (removeIfExists fs (emb_path userID embName))
      (nnm_path userID embName))
    (params_path userID embName)

/-- The JSON response of `delete_obsm_put`: HTTP status and the `fail`
flag of the body. -/
structure DeleteObsmResponse where
  status : Nat
  fail : Bool
deriving DecidableEq, Repr

/-- `delete_obsm_put(request, data_adaptor)`: the local `fail` variable is
initialised `False` and never reassigned; a `None` (or absent) `embNames`
skips the loop; the response is always `{"fail": fail}` with HTTP 200. -/
def delete_obsm_put (fs : FileSys) (userID : String)
    (embNames : Option (List String)) : FileSys × DeleteObsmResponse :=
  let fail := false
  let fs2 :=
    match embNames with
    | none => fs
    | some names => names.foldl (deleteEmbArtifacts userID) fs
  (fs2, ⟨200, fail⟩)

/-! ## Export handlers (`save_metadata_put`, `save_genedata_put`) -/

/-- A successful export response: `send_file(path, as_attachment=True)`. -/
inductive ExportResponse
  | sendFile (path : String)
deriving DecidableEq, Repr

/-- The obs-label export file `f"{userID}/{userID}_obs.csv"`. -/
def obs_export_path (userID : String) : String :=
  userID ++ "/" ++ userID ++ "_obs.csv"

/-- The gene-sets export file `f"{userID}/gene-sets.csv"`. -/
def gene_sets_path (userID : String) : String :=
  userID ++ "/gene-sets.csv"

/-- The `remove_file` hook `save_metadata_put` registers with
`@after_this_request`: attempt `os.remove`, swallow any exception
(printing it), and return the response unchanged on both paths. -/
def removeFileHook (fs : FileSys) (p : String) (resp : ExportResponse) :
    FileSys × ExportResponse :=
  match osRemove fs p with
  | .ok fs2 => (fs2, resp)
  | .error _ => (fs, resp)

/-- `save_metadata_put`, reduced to its file lifecycle: the filtered label
table is written to `<userID>/<userID>_obs.csv` (`labels.to_csv`), that
file is sent as the response, and after the response completes the
registered hook removes it.  (The pandas label slicing is numeric work
orthogonal to the lifecycle claim and not modelled.) -/
def save_metadata_put (fs : FileSys) (userID : String) :
    FileSys × ExportResponse :=
  let p := obs_export_path userID
  let fs1 := writeFile fs p
  let resp := ExportResponse.sendFile p
  removeFileHook fs1 p resp

/-- `save_genedata_put`: sends `<userID>/gene-sets.csv` as the response
and registers no cleanup hook — the filesystem is untouched. -/
def save_genedata_put (fs : FileSys) (userID : String) :
    FileSys × ExportResponse :=
  (fs, ExportResponse.sendFile (gene_sets_path userID))

/-! ## Var-summary POST gate (`summarize_var_post`) -/

/-- `needle.isPrefixOf`-based scan over all suffixes. -/
def isInfixChars (needle : List Char) : List Char → Bool
  | [] => needle.isPrefixOf []
  | c :: rest => needle.isPrefixOf (c :: rest) || isInfixChars needle rest

/-- Python's `needle in s` substring test. -/
def containsSubstr (s needle : String) : Bool := isInfixChars needle.data s.data

/-- The request attributes `summarize_var_post` reads before delegating:
`request.content_type` (absent header modelled `none`) and
`request.content_length`, the byte size of the posted body. -/
structure VarPostRequest where
  contentType : Option String
  contentLength : Nat
deriving DecidableEq, Repr

/-- Outcome of the `summarize_var_post` gate: a 415 abort, a 400 abort, or
delegation to `summarize_var_helper` (where the summary is computed). -/
inductive VarPostOutcome
  | unsupportedMediaType
  | badRequestTooLarge
  | proceed
deriving DecidableEq, Repr

/-- Python truthiness of `request.content_type`: `None` and `""` are
falsy. -/
def contentTypeTruthy : Option String → Bool
  | none => false
  | some s => !(s == "")

/-- The gate of `summarize_var_post(request, data_adaptor)`:
`if not request.content_type or "application/x-www-form-urlencoded" not
in request.content_type` aborts 415, then a body over 1,000,000 bytes
aborts 400, and only then is `summarize_var_helper` invoked. -/
def summarize_var_post (r : VarPostRequest) : VarPostOutcome :=
  if !(contentTypeTruthy r.contentType)
      || !(containsSubstr (r.contentType.getD "") "application/x-www-form-urlencoded") then
    .unsupportedMediaType
  else if r.contentLength > 1000000 then .badRequestTooLarge
  else .proceed

/-! ## Verification-layer views of the parser state -/

/-- The entry list of one axis of the parse state, by axis name. -/
def axisEntries (st : ParseState) (ax : String) : List FieldFilter :=
  if ax = "obs" then st.obs else if ax = "var" then st.var else []

/-- The accumulated entry for field `n` of axis `ax`, if any. -/
def entryFor (st : ParseState) (ax n : String) : Option FieldFilter :=
  (axisEntries st ax).find? (fun f => f.name == n)

/-- The field already holds a value-set entry (`"values" in current`). -/
def HasValues (st : ParseState) (ax n : String) : Prop :=
  ∃ f, entryFor st ax n = some f ∧ f.values.isSome = true

/-- The field already holds a range (`"min" in current or "max" in
current`). -/
def HasRange (st : ParseState) (ax n : String) : Prop :=
  ∃ f, entryFor st ax n = some f ∧ (f.min.isSome || f.max.isSome) = true

/-- Concrete diff-exp request body for claim C1: `set1` entirely absent,
`set2` present with an empty filter object, `count` present. -/
def c1AbsentSet1Body : DiffexpBody :=
  { mode := some "topN", varFilterPresent := false,
    set1 := none, set2 := some ⟨some (some [])⟩, count := some 10 }

/-! ## Theorems settling the claims -/

/-- Helper: `List.contains` agrees with membership for strings. -/
theorem contains_eq_true_iff (l : List String) (a : String) :
    l.contains a = true ↔ a ∈ l := List.elem_iff

/-- Claim C6 (confirmed): parsing the parameter sequence
`obs:tissue=heart, obs:num_reads=1000,*` returns exactly the filter
`obs -> annotation_value = [ (tissue, values [heart]), (num_reads, min 1000.0) ]`
with no `var` axis key present. -/
theorem c6_scenario :
    queryParameterToFilter [("obs:tissue", "heart"), ("obs:num_reads", "1000,*")] =
      .ok ⟨some [⟨"tissue", some ["heart"], none, none⟩,
                 ⟨"num_reads", none, some 1000, none⟩], none⟩ := by
  rfl

/-- Claim C9 (confirmed): the delete-embeddings operation's response is
always `fail = false` with HTTP 200, for every filesystem, user and
`embNames` argument (null, empty, or names without artifacts); the fail
flag is never set to true. -/
theorem c9_delete_response (fs : FileSys) (userID : String)
    (embNames : Option (List String)) :
    (delete_obsm_put fs userID embNames).2 = ⟨200, false⟩ := rfl

/-- Claim C2 counterexample: a dataset with a raw matrix and no declared
layers yields the layer list `[X, .raw]` — `.raw` is not listed first,
refuting the claim that `.raw` is first whenever the dataset has a raw
layer. -/
theorem c2_counterexample :
    (DatasetLayers.mk true []).raw = true ∧
    schema_layers ⟨true, []⟩ = ["X", ".raw"] ∧
    (schema_layers ⟨true, []⟩).head? ≠ some ".raw" := by
  refine ⟨rfl, rfl, ?_⟩
  decide

/-- Claim C2 (corrected): the schema's layer list always contains `X`;
when the dataset has a raw layer, `.raw` precedes every declared layer
and is listed first provided `X` is among the declared layers — when `X`
is not declared, `X` is prepended in front of `.raw`. -/
theorem c2_layers (d : DatasetLayers) :
    "X" ∈ schema_layers d ∧
    (d.raw = true →
      ".raw" ∈ schema_layers d ∧
      ("X" ∈ d.layerKeys → (schema_layers d).head? = some ".raw") ∧
      ("X" ∉ d.layerKeys → schema_layers d = "X" :: ".raw" :: d.layerKeys)) := by
  cases hr : d.raw <;> by_cases hx : "X" ∈ d.layerKeys
  · have hc : d.layerKeys.contains "X" = true := (contains_eq_true_iff _ _).mpr hx
    simp [schema_layers, hr, hc, hx]
  · have hc : d.layerKeys.contains "X" = false := by
      rw [Bool.eq_false_iff]
      intro h
      exact hx ((contains_eq_true_iff _ _).mp h)
    simp [schema_layers, hr, hc, hx]
  · have hc : (".raw" :: d.layerKeys).contains "X" = true :=
      (contains_eq_true_iff _ _).mpr (List.mem_cons_of_mem _ hx)
    refine ⟨?_, fun _ => ⟨?_, fun _ => ?_, fun hnx => absurd hx hnx⟩⟩ <;>
      simp [schema_layers, hr, hc, hx]
  · have hc : (".raw" :: d.layerKeys).contains "X" = false := by
      rw [Bool.eq_false_iff]
      intro h
      rcases List.mem_cons.mp ((contains_eq_true_iff _ _).mp h) with h1 | h2
      · exact absurd h1 (by decide)
      · exact hx h2
    simp [schema_layers, hr, hc, hx]

/-- Witness for the corrected claim C2, at a dataset declaring `X` and at
one not declaring it. -/
theorem c2_layers_witness :
    "X" ∈ schema_layers ⟨true, ["X", "spliced"]⟩ ∧
    (schema_layers ⟨true, ["X", "spliced"]⟩).head? = some ".raw" ∧
    schema_layers ⟨true, []⟩ = "X" :: ".raw" :: [] :=
  ⟨(c2_layers ⟨true, ["X", "spliced"]⟩).1,
   ((c2_layers ⟨true, ["X", "spliced"]⟩).2 rfl).2.1 (by decide),
   ((c2_layers ⟨true, []⟩).2 rfl).2.2 (by decide)⟩

/-- Helper: the after-request hook returns the response unchanged on both
its paths. -/
theorem removeFileHook_resp (fs : FileSys) (p : String) (resp : ExportResponse) :
    (removeFileHook fs p resp).2 = resp := by
  unfold removeFileHook
  cases osRemove fs p <;> rfl

/-- Helper: a just-written file exists. -/
theorem contains_writeFile (fs : FileSys) (p : String) :
    (writeFile fs p).contains p = true := by
  rw [contains_eq_true_iff]
  unfold writeFile
  by_cases h : fs.contains p = true
  · rw [if_pos h]; exact (contains_eq_true_iff _ _).mp h
  · rw [if_neg h]; exact List.mem_append_right _ (List.mem_singleton.mpr rfl)

/-- Helper: a path is never a member of the list filtered on inequality
with it. -/
theorem not_mem_filter_ne (fs : FileSys) (p : String) :
    p ∉ fs.filter (fun q => q != p) := by
  intro h
  have := (List.mem_filter.mp h).2
  simp at this

/-- Claim C3 counterexample: the gene-sets export leaves the exported
file `u/gene-sets.csv` in the user's storage scope after the response —
refuting the claim that both export operations remove their file. -/
theorem c3_counterexample :
    gene_sets_path "u" ∈ (save_genedata_put [gene_sets_path "u"] "u").1 ∧
    (save_genedata_put [gene_sets_path "u"] "u").1 = [gene_sets_path "u"] := by
  exact ⟨by decide, rfl⟩

/-- Claim C3 (corrected): the obs-labels export removes its exported file
after the response completes, and the after-request removal hook never
changes the response (a removal failure is swallowed); the gene-sets
export sends the file but removes nothing — the filesystem is returned
untouched. -/
theorem c3_export_cleanup (fs : FileSys) (userID p : String) (resp : ExportResponse) :
    obs_export_path userID ∉ (save_metadata_put fs userID).1 ∧
    (save_metadata_put fs userID).2 = ExportResponse.sendFile (obs_export_path userID) ∧
    (removeFileHook fs p resp).2 = resp ∧
    save_genedata_put fs userID = (fs, ExportResponse.sendFile (gene_sets_path userID)) := by
  refine ⟨?_, removeFileHook_resp _ _ _, removeFileHook_resp _ _ _, rfl⟩
  have hw : (writeFile fs (obs_export_path userID)).contains (obs_export_path userID) = true :=
    contains_writeFile fs (obs_export_path userID)
  simp only [save_metadata_put, removeFileHook, osRemove, hw, ite_true]
  exact not_mem_filter_ne _ _

/-- Claim C10 (confirmed): the POST var-summary gate rejects any request
whose content type does not contain `application/x-www-form-urlencoded`
as unsupported-media-type, and any request with an acceptable content
type whose body exceeds 1,000,000 bytes as bad-request — in both cases
the outcome is not `proceed`, so the summary computation is never
attempted. -/
theorem c10_var_post_gate (r : VarPostRequest) :
    (containsSubstr (r.contentType.getD "") "application/x-www-form-urlencoded" = false →
      summarize_var_post r = VarPostOutcome.unsupportedMediaType) ∧
    (containsSubstr (r.contentType.getD "") "application/x-www-form-urlencoded" = true →
      1000000 < r.contentLength →
      summarize_var_post r = VarPostOutcome.badRequestTooLarge) := by
  constructor
  · intro h
    simp [summarize_var_post, h]
  · intro h hlen
    have htr : contentTypeTruthy r.contentType = true := by
      cases hct : r.contentType with
      | none => rw [hct] at h; exact absurd h (by decide)
      | some s =>
        rw [hct] at h
        by_cases hs : s = ""
        · subst hs; exact absurd h (by decide)
        · simp [contentTypeTruthy, hs]
    simp [summarize_var_post, h, htr, hlen]

/-- Witness for claim C10 at a text/plain request and at an oversized
form-urlencoded request. -/
theorem c10_var_post_gate_witness :
    summarize_var_post ⟨some "text/plain", 10⟩ = VarPostOutcome.unsupportedMediaType ∧
    summarize_var_post ⟨some "application/x-www-form-urlencoded; charset=UTF-8", 1000001⟩ =
      VarPostOutcome.badRequestTooLarge :=
  ⟨(c10_var_post_gate _).1 (by decide),
   (c10_var_post_gate _).2 (by decide) (by decide)⟩

/-- Claim C1 counterexample: a diff-exp request whose `set1` is entirely
absent from the body is not rejected — the absent sub-filter defaults to
an empty filter and the computation is invoked — refuting the claim that
an absent `set1` yields the "missing parameter" error. -/
theorem c1_counterexample :
    c1AbsentSet1Body.set1 = none ∧
    diffexp_obs_post true c1AbsentSet1Body = DiffexpResult.computed [] [] 10 ∧
    ∀ msg, diffexp_obs_post true c1AbsentSet1Body ≠ DiffexpResult.badRequest msg :=
  ⟨rfl, rfl, fun _ h => nomatch h⟩

/-- Claim C1 (corrected): the diff-exp operation rejects with the single
"missing required parameter" error exactly when `set1` or `set2` is
present with a JSON-null filter, or `count` is absent or null; an
entirely absent `set1`/`set2` instead defaults to an empty filter.  When
the error fires the computation is never invoked. -/
theorem c1_missing_parameter (args : DiffexpBody) (m : String) (mode : DiffExpMode)
    (s1 s2 : Option (List String))
    (hm : args.mode = some m) (hparse : parseDiffExpMode m = some mode)
    (hmode : mode ≠ DiffExpMode.varFilter) (hvf : args.varFilterPresent = false)
    (h1 : getSetFilter args.set1 = .ok s1) (h2 : getSetFilter args.set2 = .ok s2)
    (hmiss : s1 = none ∨ s2 = none ∨ args.count = none) :
    diffexp_obs_post true args = DiffexpResult.badRequest "missing required parameter" ∧
    ∀ a b c, diffexp_obs_post true args ≠ DiffexpResult.computed a b c := by
  have hbeq : (mode == DiffExpMode.varFilter) = false := by
    simp [hmode]
  have hnone : (s1.isNone || s2.isNone || args.count.isNone) = true := by
    rcases hmiss with h | h | h <;> simp [h]
  have key : diffexp_obs_post true args = DiffexpResult.badRequest "missing required parameter" := by
    simp [diffexp_obs_post, hm, hparse, hbeq, hvf, h1, h2, hnone]
  exact ⟨key, fun a b c h => by rw [key] at h; exact DiffexpResult.noConfusion h⟩

/-- Witness for the corrected claim C1 at a request whose `set1` carries
a null filter. -/
theorem c1_missing_parameter_witness :
    diffexp_obs_post true ⟨some "topN", false, some ⟨some none⟩, some ⟨some (some [])⟩, some 5⟩ =
      DiffexpResult.badRequest "missing required parameter" :=
  (c1_missing_parameter ⟨some "topN", false, some ⟨some none⟩, some ⟨some (some [])⟩, some 5⟩
    "topN" DiffExpMode.topN none (some []) rfl rfl (by decide) rfl rfl rfl (Or.inl rfl)).1

/-- Claim C4 (confirmed): for an otherwise well-formed diff-exp request,
if the filter of `set1` or of `set2` contains a `var` axis entry, the
operation returns the bad-request error "var axis filter not enabled"
and the Analysis Engine's `diffexp_topN` is never invoked. -/
theorem c4_var_filter_rejected (args : DiffexpBody) (m : String) (mode : DiffExpMode)
    (k1 k2 : List String)
    (hm : args.mode = some m) (hparse : parseDiffExpMode m = some mode)
    (hmode : mode ≠ DiffExpMode.varFilter) (hvf : args.varFilterPresent = false)
    (h1 : getSetFilter args.set1 = .ok (some k1)) (h2 : getSetFilter args.set2 = .ok (some k2))
    (hc : args.count ≠ none)
    (hvar : "var" ∈ k1 ∨ "var" ∈ k2) :
    diffexp_obs_post true args = DiffexpResult.badRequest "var axis filter not enabled" ∧
    ∀ a b c, diffexp_obs_post true args ≠ DiffexpResult.computed a b c := by
  have hbeq : (mode == DiffExpMode.varFilter) = false := by
    simp [hmode]
  have hcn : args.count.isNone = false := by
    rcases hcount : args.count with _ | c
    · exact absurd hcount hc
    · rfl
  have hvarb : (k1.contains "var" || k2.contains "var") = true := by
    rcases hvar with h | h
    · simp [contains_eq_true_iff, h]
    · simp [contains_eq_true_iff, h]
  have key : diffexp_obs_post true args = DiffexpResult.badRequest "var axis filter not enabled" := by
    simp [diffexp_obs_post, hm, hparse, hbeq, hvf, h1, h2, hcn, hvarb]
    intro h
    rcases hvar with hv | hv
    · exact absurd hv h
    · exact hv
  exact ⟨key, fun a b c h => by rw [key] at h; exact DiffexpResult.noConfusion h⟩

/-- Witness for claim C4 at a request whose `set1` filter has a `var`
key. -/
theorem c4_var_filter_rejected_witness :
    diffexp_obs_post true ⟨some "topN", false, some ⟨some (some ["var"])⟩,
        some ⟨some (some ["obs"])⟩, some 7⟩ =
      DiffexpResult.badRequest "var axis filter not enabled" :=
  (c4_var_filter_rejected ⟨some "topN", false, some ⟨some (some ["var"])⟩,
      some ⟨some (some ["obs"])⟩, some 7⟩ "topN" DiffExpMode.topN ["var"] ["obs"]
    rfl rfl (by decide) rfl rfl rfl (by decide) (Or.inl (by decide))).1

/-- Helper: removing a path removes it. -/
theorem not_mem_removeIfExists_self (fs : FileSys) (p : String) :
    p ∉ removeIfExists fs p := by
  unfold removeIfExists pathExists
  by_cases h : fs.contains p = true
  · rw [if_pos h]; exact not_mem_filter_ne fs p
  · rw [if_neg h]
    intro hm
    exact h ((contains_eq_true_iff _ _).mpr hm)

/-- Helper: removals never add paths. -/
theorem not_mem_removeIfExists (fs : FileSys) (p q : String) (h : p ∉ fs) :
    p ∉ removeIfExists fs q := by
  unfold removeIfExists
  by_cases hq : pathExists fs q = true
  · rw [if_pos hq]
    intro hm
    exact h (List.mem_filter.mp hm).1
  · rw [if_neg hq]; exact h

/-- Helper: deleting one embedding name removes its three artifacts. -/
theorem deleteEmbArtifacts_kills (userID : String) (fs : FileSys) (n : String) :
    emb_path userID n ∉ deleteEmbArtifacts userID fs n ∧
    nnm_path userID n ∉ deleteEmbArtifacts userID fs n ∧
    params_path userID n ∉ deleteEmbArtifacts userID fs n := by
  unfold deleteEmbArtifacts
  refine ⟨?_, ?_, not_mem_removeIfExists_self _ _⟩
  · exact not_mem_removeIfExists _ _ _
      (not_mem_removeIfExists _ _ _ (not_mem_removeIfExists_self _ _))
  · exact not_mem_removeIfExists _ _ _ (not_mem_removeIfExists_self _ _)

/-- Helper: deleting artifacts of any name adds no paths. -/
theorem not_mem_deleteEmbArtifacts (userID : String) (fs : FileSys) (m p : String)
    (h : p ∉ fs) : p ∉ deleteEmbArtifacts userID fs m :=
  not_mem_removeIfExists _ _ _ (not_mem_removeIfExists _ _ _ (not_mem_removeIfExists _ _ _ h))

/-- Helper: the deletion loop adds no paths. -/
theorem not_mem_foldl_delete (userID : String) (names : List String) (fs : FileSys)
    (p : String) (h : p ∉ fs) : p ∉ names.foldl (deleteEmbArtifacts userID) fs := by
  induction names generalizing fs with
  | nil => exact h
  | cons m t ih => exact ih _ (not_mem_deleteEmbArtifacts userID fs m p h)

/-- Helper: the deletion loop removes every listed name's artifacts. -/
theorem foldl_delete_kills (userID : String) (names : List String) (n : String) :
    ∀ fs : FileSys, n ∈ names →
      emb_path userID n ∉ names.foldl (deleteEmbArtifacts userID) fs ∧
      nnm_path userID n ∉ names.foldl (deleteEmbArtifacts userID) fs ∧
      params_path userID n ∉ names.foldl (deleteEmbArtifacts userID) fs := by
  induction names with
  | nil =>
    intro fs hmem
    exact absurd hmem (List.not_mem_nil n)
  | cons m t ih =>
    intro fs hmem
    rcases List.mem_cons.mp hmem with he | ht
    · subst he
      obtain ⟨h1, h2, h3⟩ := deleteEmbArtifacts_kills userID fs n
      exact ⟨not_mem_foldl_delete userID t _ _ h1,
             not_mem_foldl_delete userID t _ _ h2,
             not_mem_foldl_delete userID t _ _ h3⟩
    · exact ih _ ht

/-- Claim C7 (confirmed): for every name in the requested list, each of
the three artifacts (coordinates under `emb/`, neighbor graph under
`nnm/`, parameters under `params/`) is absent from the user's scope after
the operation — removed when present, skipped silently when not — and the
operation completes with HTTP 200 and no error. -/
theorem c7_delete_embeddings (fs : FileSys) (userID : String) (names : List String)
    (n : String) (hmem : n ∈ names) :
    emb_path userID n ∉ (delete_obsm_put fs userID (some names)).1 ∧
    nnm_path userID n ∉ (delete_obsm_put fs userID (some names)).1 ∧
    params_path userID n ∉ (delete_obsm_put fs userID (some names)).1 ∧
    (delete_obsm_put fs userID (some names)).2 = ⟨200, false⟩ := by
  obtain ⟨h1, h2, h3⟩ := foldl_delete_kills userID names n fs hmem
  exact ⟨h1, h2, h3, rfl⟩

/-- Witness for claim C7: deleting `[e1, e2]` when only two of `e1`'s
artifacts exist. -/
theorem c7_delete_embeddings_witness :
    emb_path "u" "e1" ∉ (delete_obsm_put [emb_path "u" "e1", nnm_path "u" "e1"] "u" (some ["e1", "e2"])).1 ∧
    nnm_path "u" "e1" ∉ (delete_obsm_put [emb_path "u" "e1", nnm_path "u" "e1"] "u" (some ["e1", "e2"])).1 ∧
    params_path "u" "e1" ∉ (delete_obsm_put [emb_path "u" "e1", nnm_path "u" "e1"] "u" (some ["e1", "e2"])).1 ∧
    (delete_obsm_put [emb_path "u" "e1", nnm_path "u" "e1"] "u" (some ["e1", "e2"])).2 = ⟨200, false⟩ :=
  c7_delete_embeddings [emb_path "u" "e1", nnm_path "u" "e1"] "u" ["e1", "e2"] "e1" (by decide)

/-! ### Loop plumbing for the filter parser -/

/-- Helper: unfolding the loop one successful step. -/
theorem runParams_cons_ok {st st2 : ParseState} {p : String × String}
    (h : stepParam st p = .ok st2) (l : List (String × String)) :
    runParams st (p :: l) = runParams st2 l := by
  simp only [runParams]
  rw [h]

/-- Helper: a failing loop body fails the whole loop. -/
theorem runParams_cons_error {st : ParseState} {p : String × String} {e : String}
    (h : stepParam st p = .error e) (l : List (String × String)) :
    runParams st (p :: l) = .error e := by
  simp only [runParams]
  rw [h]

/-- Helper: splitting the loop at a successful prefix. -/
theorem runParams_append_ok {st st2 : ParseState} {l1 : List (String × String)}
    (h : runParams st l1 = .ok st2) (l2 : List (String × String)) :
    runParams st (l1 ++ l2) = runParams st2 l2 := by
  induction l1 generalizing st with
  | nil =>
    simp only [runParams] at h
    cases h
    rfl
  | cons p t ih =>
    cases hst : stepParam st p with
    | error e =>
      rw [runParams_cons_error hst] at h
      exact Except.noConfusion h
    | ok st3 =>
      rw [runParams_cons_ok hst] at h
      rw [List.cons_append, runParams_cons_ok hst]
      exact ih h

/-- Helper: a failing prefix fails the whole loop. -/
theorem runParams_append_error {st : ParseState} {l1 : List (String × String)} {e : String}
    (h : runParams st l1 = .error e) (l2 : List (String × String)) :
    runParams st (l1 ++ l2) = .error e := by
  induction l1 generalizing st with
  | nil =>
    simp only [runParams] at h
    exact Except.noConfusion h
  | cons p t ih =>
    cases hst : stepParam st p with
    | error e2 =>
      rw [runParams_cons_error hst] at h
      cases h
      exact runParams_cons_error hst _
    | ok st3 =>
      rw [runParams_cons_ok hst] at h
      rw [List.cons_append, runParams_cons_ok hst]
      exact ih h

/-- Helper: a parameter whose processing fails from every state fails any
parse whose input contains it. -/
theorem runParams_error_of_mem {args : List (String × String)} {p : String × String}
    (hmem : p ∈ args)
    (hbad : ∀ st : ParseState, ∃ e, stepParam st p = .error e) (st : ParseState) :
    ∃ e, runParams st args = .error e := by
  obtain ⟨l1, l2, rfl⟩ := List.append_of_mem hmem
  cases hpre : runParams st l1 with
  | error e => exact ⟨e, runParams_append_error hpre _⟩
  | ok st2 =>
    obtain ⟨e, he⟩ := hbad st2
    exact ⟨e, by rw [runParams_append_ok hpre]; exact runParams_cons_error he l2⟩

/-- Helper: a failing loop is a failing parse. -/
theorem qptf_error {args : List (String × String)}
    (h : ∃ e, runParams ⟨[], []⟩ args = .error e) :
    ∃ e, queryParameterToFilter args = .error e := by
  obtain ⟨e, he⟩ := h
  exact ⟨e, by unfold queryParameterToFilter; rw [he]⟩

/-! ### Step-level failure lemmas -/

/-- Helper: a key that does not split into exactly two parts fails the
loop body from every state. -/
theorem stepParam_error_badkey {k v : String}
    (h : (pySplit k ':').length ≠ 2) (st : ParseState) :
    ∃ e, stepParam st (k, v) = .error e := by
  unfold stepParam
  rcases hs : pySplit k ':' with _ | ⟨a, _ | ⟨b, _ | ⟨c, t⟩⟩⟩
  · exact ⟨_, rfl⟩
  · exact ⟨_, rfl⟩
  · rw [hs] at h; simp at h
  · exact ⟨_, rfl⟩

/-- Helper: an unknown axis fails the loop body from every state. -/
theorem stepParam_error_badaxis {k v ax n0 : String}
    (hs : pySplit k ':' = [ax, n0]) (hobs : ax ≠ "obs") (hvar : ax ≠ "var")
    (st : ParseState) :
    ∃ e, stepParam st (k, v) = .error e :=
  ⟨"unknown filter axis", by simp [stepParam, hs, hobs, hvar]⟩

/-- Helper: a value with three or more comma segments is rejected whatever
the current entry. -/
theorem applySegments_error_of_count {v : String}
    (h : 3 ≤ (pySplit v ',').length) (cur : FieldFilter) :
    applySegments cur v = .error "badly formated filter value" := by
  unfold applySegments
  rcases hs : pySplit v ',' with _ | ⟨a, _ | ⟨b, _ | ⟨c, t⟩⟩⟩
  · rfl
  · rw [hs] at h
    exact absurd h (by simp)
  · rw [hs] at h
    exact absurd h (by simp)
  · rfl

/-- Helper: a range with a non-wildcard, non-numeric endpoint is rejected
whatever the current entry. -/
theorem applySegments_error_badrange {v mn mx : String}
    (hs : pySplit v ',' = [mn, mx])
    (hbad : (urlUnquote mn ≠ "*" ∧ parsePyFloat? (urlUnquote mn) = none) ∨
            (urlUnquote mx ≠ "*" ∧ parsePyFloat? (urlUnquote mx) = none))
    (cur : FieldFilter) :
    ∃ e, applySegments cur v = .error e := by
  by_cases hsz : 1 < cur.size
  · exact ⟨"duplicate range specification", by simp [applySegments, hs, hsz]⟩
  · rcases hbad with ⟨hw, hp⟩ | ⟨hw, hp⟩
    · exact ⟨"could not convert string to float",
        by simp [applySegments, hs, hsz, applyRangeMin, hw, hp]⟩
    · cases hmin : applyRangeMin cur (urlUnquote mn) with
      | none => exact ⟨"could not convert string to float",
          by simp [applySegments, hs, hsz, hmin]⟩
      | some c1 =>
        exact ⟨"could not convert string to float",
          by simp [applySegments, hs, hsz, hmin, applyRangeMax, hw, hp]⟩

/-- Helper: a value rejected whatever the current entry fails the loop
body from every state. -/
theorem stepParam_error_of_applyAll {v : String}
    (h : ∀ cur, ∃ e, applySegments cur v = .error e) (k : String) (st : ParseState) :
    ∃ e, stepParam st (k, v) = .error e := by
  rcases hs : pySplit k ':' with _ | ⟨a, _ | ⟨b, _ | ⟨c, t⟩⟩⟩
  · exact ⟨"values to unpack", by simp [stepParam, hs]⟩
  · exact ⟨"values to unpack", by simp [stepParam, hs]⟩
  · by_cases ha : a = "obs"
    · subst ha
      obtain ⟨e, he⟩ := h (getCurrent st.obs (urlUnquote b))
      exact ⟨e, by simp [stepParam, hs, he]⟩
    · by_cases hb : a = "var"
      · subst hb
        obtain ⟨e, he⟩ := h (getCurrent st.var (urlUnquote b))
        exact ⟨e, by simp [stepParam, hs, ha, he]⟩
      · exact ⟨"unknown filter axis", by simp [stepParam, hs, ha, hb]⟩
  · exact ⟨"values to unpack", by simp [stepParam, hs]⟩

/-- Claim C8 (confirmed): filter parsing is total — it returns a filter
document or a `FilterError`, never anything else — and each malformed
input class fails with `FilterError`: a key that does not split into
exactly two colon-separated parts, an unknown axis, a wrong comma-segment
count, and a non-wildcard non-numeric range endpoint. -/
theorem c8_filter_errors (args : List (String × String)) (k v : String)
    (hmem : (k, v) ∈ args) :
    ((∃ f, queryParameterToFilter args = .ok f) ∨
     (∃ e, queryParameterToFilter args = .error e)) ∧
    ((pySplit k ':').length ≠ 2 → ∃ e, queryParameterToFilter args = .error e) ∧
    (∀ ax n0, pySplit k ':' = [ax, n0] → ax ≠ "obs" → ax ≠ "var" →
      ∃ e, queryParameterToFilter args = .error e) ∧
    (3 ≤ (pySplit v ',').length → ∃ e, queryParameterToFilter args = .error e) ∧
    (∀ mn mx, pySplit v ',' = [mn, mx] →
      ((urlUnquote mn ≠ "*" ∧ parsePyFloat? (urlUnquote mn) = none) ∨
       (urlUnquote mx ≠ "*" ∧ parsePyFloat? (urlUnquote mx) = none)) →
      ∃ e, queryParameterToFilter args = .error e) := by
  refine ⟨?_, ?_, ?_, ?_, ?_⟩
  · cases h : queryParameterToFilter args with
    | ok f => exact Or.inl ⟨f, rfl⟩
    | error e => exact Or.inr ⟨e, rfl⟩
  · intro h
    exact qptf_error (runParams_error_of_mem hmem (stepParam_error_badkey h) _)
  · intro ax n0 hs ho hv2
    exact qptf_error (runParams_error_of_mem hmem (stepParam_error_badaxis hs ho hv2) _)
  · intro h
    exact qptf_error (runParams_error_of_mem hmem
      (stepParam_error_of_applyAll (fun cur => ⟨_, applySegments_error_of_count h cur⟩) k) _)
  · intro mn mx hs hbad
    exact qptf_error (runParams_error_of_mem hmem
      (stepParam_error_of_applyAll (fun cur => applySegments_error_badrange hs hbad cur) k) _)

/-- Witness for claim C8 at concrete inputs exercising all four failure
classes. -/
theorem c8_filter_errors_witness :
    (∃ e, queryParameterToFilter [("nocolon", "x")] = .error e) ∧
    (∃ e, queryParameterToFilter [("foo:bar", "1")] = .error e) ∧
    (∃ e, queryParameterToFilter [("obs:f", "1,2,3")] = .error e) ∧
    (∃ e, queryParameterToFilter [("obs:g", "abc,*")] = .error e) :=
  ⟨(c8_filter_errors [("nocolon", "x")] "nocolon" "x" (by decide)).2.1 (by decide),
   (c8_filter_errors [("foo:bar", "1")] "foo:bar" "1" (by decide)).2.2.1 "foo" "bar"
     (by decide) (by decide) (by decide),
   (c8_filter_errors [("obs:f", "1,2,3")] "obs:f" "1,2,3" (by decide)).2.2.2.1 (by decide),
   (c8_filter_errors [("obs:g", "abc,*")] "obs:g" "abc,*" (by decide)).2.2.2.2 "abc" "*"
     (by decide) (Or.inl ⟨by decide, by decide⟩)⟩

/-! ### Entry-tracking lemmas for the mixing claim -/

/-- Helper: a found entry's name is the lookup key. -/
theorem find?_name_eq {l : List FieldFilter} {n : String} {f : FieldFilter}
    (h : l.find? (fun g => g.name == n) = some f) : f.name = n := by
  have := List.find?_some h
  simpa using this

/-- Helper: `getCurrent` returns an entry named by the key. -/
theorem getCurrent_name (l : List FieldFilter) (n : String) :
    (getCurrent l n).name = n := by
  unfold getCurrent
  cases h : l.find? (fun f => f.name == n) with
  | none => rfl
  | some f => exact find?_name_eq h

/-- Helper: updating the entry named `n` makes it the one `find?`
returns, when an entry with that name was present. -/
theorem find?_map_update {l : List FieldFilter} {n : String} {f : FieldFilter}
    (hf : f.name = n) :
    (l.map (fun g => if g.name == n then f else g)).find? (fun g => g.name == n) =
      if (l.find? (fun g => g.name == n)).isSome then some f else none := by
  induction l with
  | nil => simp
  | cons c t ih =>
    cases hb : c.name == n with
    | true =>
      have hfb : (f.name == n) = true := beq_iff_eq.mpr hf
      simp only [List.map_cons, List.find?_cons, hb, if_true, hfb, Option.isSome_some]
    | false =>
      simp only [List.map_cons, List.find?_cons, hb, Bool.false_eq_true, if_false, ih]

/-- Helper: updating the entry named `n` leaves lookups of other names
unchanged. -/
theorem find?_map_other {l : List FieldFilter} {n m : String} {f : FieldFilter}
    (hf : f.name = n) (hm : m ≠ n) :
    (l.map (fun g => if g.name == n then f else g)).find? (fun g => g.name == m) =
      l.find? (fun g => g.name == m) := by
  induction l with
  | nil => simp
  | cons c t ih =>
    cases hb : c.name == n with
    | true =>
      have hc : c.name = n := beq_iff_eq.mp hb
      have h2 : (f.name == m) = false := beq_eq_false_iff_ne.mpr (hf ▸ fun he => hm he.symm)
      have h3 : (c.name == m) = false := beq_eq_false_iff_ne.mpr (hc ▸ fun he => hm he.symm)
      simp only [List.map_cons, List.find?_cons, hb, if_true, h2, h3, ih]
    | false =>
      simp only [List.map_cons, List.find?_cons, hb, Bool.false_eq_true, if_false, ih]

/-- Helper: after `setCurrent l n f`, looking up `n` finds `f`. -/
theorem find?_setCurrent_self {l : List FieldFilter} {n : String} {f : FieldFilter}
    (hf : f.name = n) :
    (setCurrent l n f).find? (fun g => g.name == n) = some f := by
  unfold setCurrent
  by_cases h : (l.find? (fun g => g.name == n)).isSome = true
  · rw [if_pos h, find?_map_update hf, if_pos h]
  · rw [if_neg h, List.find?_append]
    have h0 : l.find? (fun g => g.name == n) = none := by
      cases hh : l.find? (fun g => g.name == n) with
      | none => rfl
      | some g => rw [hh] at h; simp at h
    rw [h0]
    have hb : (f.name == n) = true := by simp [hf]
    simp [List.find?_cons, hb]

/-- Helper: after `setCurrent l n f`, looking up other names is
unchanged. -/
theorem find?_setCurrent_other {l : List FieldFilter} {n m : String} {f : FieldFilter}
    (hf : f.name = n) (hm : m ≠ n) :
    (setCurrent l n f).find? (fun g => g.name == m) = l.find? (fun g => g.name == m) := by
  unfold setCurrent
  by_cases h : (l.find? (fun g => g.name == n)).isSome = true
  · rw [if_pos h, find?_map_other hf hm]
  · rw [if_neg h, List.find?_append]
    have h2 : (f.name == m) = false := by
      rw [hf]
      exact beq_eq_false_iff_ne.mpr (fun he => hm he.symm)
    simp [List.find?_cons, h2]

/-! ### Size bookkeeping of a field entry -/

/-- Helper: a size-one entry holds nothing but its name. -/
theorem size_le_one {cur : FieldFilter} (h : ¬ 1 < cur.size) :
    cur.values.isSome = false ∧ cur.min.isSome = false ∧ cur.max.isSome = false := by
  cases hv : cur.values.isSome <;> cases hm : cur.min.isSome <;> cases hx : cur.max.isSome <;>
    simp_all [FieldFilter.size]

/-- Helper: an entry holding a value-set or range bound has size above
one. -/
theorem one_lt_size {cur : FieldFilter}
    (h : cur.values.isSome = true ∨ (cur.min.isSome || cur.max.isSome) = true) :
    1 < cur.size := by
  cases hv : cur.values.isSome <;> cases hm : cur.min.isSome <;> cases hx : cur.max.isSome <;>
    simp_all [FieldFilter.size]

/-! ### Inversion of a successful loop body -/

/-- Helper: fields unchanged by the min-endpoint assignment. -/
theorem applyRangeMin_spec {cur c1 : FieldFilter} {mn : String}
    (h : applyRangeMin cur mn = some c1) :
    c1.name = cur.name ∧ c1.values = cur.values ∧ c1.max = cur.max := by
  unfold applyRangeMin at h
  by_cases hw : mn = "*"
  · rw [if_pos hw] at h
    cases h
    exact ⟨rfl, rfl, rfl⟩
  · rw [if_neg hw] at h
    cases hp : parsePyFloat? mn with
    | none => rw [hp] at h; exact Option.noConfusion h
    | some q =>
      rw [hp] at h
      cases h
      exact ⟨rfl, rfl, rfl⟩

/-- Helper: fields unchanged by the max-endpoint assignment. -/
theorem applyRangeMax_spec {cur c1 : FieldFilter} {mx : String}
    (h : applyRangeMax cur mx = some c1) :
    c1.name = cur.name ∧ c1.values = cur.values ∧ c1.min = cur.min := by
  unfold applyRangeMax at h
  by_cases hw : mx = "*"
  · rw [if_pos hw] at h
    cases h
    exact ⟨rfl, rfl, rfl⟩
  · rw [if_neg hw] at h
    cases hp : parsePyFloat? mx with
    | none => rw [hp] at h; exact Option.noConfusion h
    | some q =>
      rw [hp] at h
      cases h
      exact ⟨rfl, rfl, rfl⟩

/-- Helper: inversion of a successful one-segment (value) update. -/
theorem applySegments_one_ok {cur f : FieldFilter} {v a : String}
    (hs : pySplit v ',' = [a])
    (h : applySegments cur v = .ok f) :
    f.name = cur.name ∧ f.values.isSome = true ∧
    (cur.min.isSome || cur.max.isSome) = false := by
  simp only [applySegments, hs] at h
  by_cases hg : (cur.min.isSome || cur.max.isSome) = true
  · rw [if_pos hg] at h
    exact Except.noConfusion h
  · rw [if_neg hg] at h
    cases h
    exact ⟨rfl, rfl, by simpa using hg⟩

/-- Helper: inversion of a successful two-segment (range) update. -/
theorem applySegments_two_ok {cur f : FieldFilter} {v mn mx : String}
    (hs : pySplit v ',' = [mn, mx])
    (h : applySegments cur v = .ok f) :
    f.name = cur.name ∧ (f.min.isSome || f.max.isSome) = true ∧
    cur.values.isSome = false ∧ cur.min.isSome = false ∧ cur.max.isSome = false := by
  simp only [applySegments, hs] at h
  by_cases hsz : 1 < cur.size
  · rw [if_pos hsz] at h
    exact Except.noConfusion h
  · rw [if_neg hsz] at h
    obtain ⟨hcv, hcm, hcx⟩ := size_le_one hsz
    cases hmin : applyRangeMin cur (urlUnquote mn) with
    | none =>
      simp only [hmin] at h
      exact Except.noConfusion h
    | some c1 =>
      simp only [hmin] at h
      cases hmax : applyRangeMax c1 (urlUnquote mx) with
      | none =>
        simp only [hmax] at h
        exact Except.noConfusion h
      | some c2 =>
        simp only [hmax] at h
        by_cases hs2 : c2.size < 2
        · rw [if_pos hs2] at h
          exact Except.noConfusion h
        · rw [if_neg hs2] at h
          cases h
          obtain ⟨hn1, hv1, hx1⟩ := applyRangeMin_spec hmin
          obtain ⟨hn2, hv2, hm2⟩ := applyRangeMax_spec hmax
          have hnam : f.name = cur.name := hn2.trans hn1
          have hval : f.values.isSome = false := by rw [hv2, hv1]; exact hcv
          have hrange : (f.min.isSome || f.max.isSome) = true := by
            by_contra hcon
            have h1 : f.min.isSome = false ∧ f.max.isSome = false := by
              cases h2 : f.min.isSome <;> cases h3 : f.max.isSome <;> simp_all
            apply hs2
            unfold FieldFilter.size
            rw [hval, h1.1, h1.2]
            simp
          exact ⟨hnam, hrange, hcv, hcm, hcx⟩

/-- Helper: a successful update keeps the entry's name. -/
theorem applySegments_name {cur f : FieldFilter} {v : String}
    (h : applySegments cur v = .ok f) : f.name = cur.name := by
  rcases hs : pySplit v ',' with _ | ⟨a, _ | ⟨b, _ | ⟨c, t⟩⟩⟩
  · simp only [applySegments, hs] at h
    exact Except.noConfusion h
  · exact (applySegments_one_ok hs h).1
  · exact (applySegments_two_ok hs h).1
  · simp only [applySegments, hs] at h
    exact Except.noConfusion h

/-- Helper: inversion of a successful loop body: some valid axis's entry
list was updated through `setCurrent`, the other axis untouched. -/
theorem stepParam_ok_inv {st st2 : ParseState} {k v : String}
    (h : stepParam st (k, v) = .ok st2) :
    ∃ ax n0 f, pySplit k ':' = [ax, n0] ∧ (ax = "obs" ∨ ax = "var") ∧
      applySegments (getCurrent (axisEntries st ax) (urlUnquote n0)) v = .ok f ∧
      axisEntries st2 ax = setCurrent (axisEntries st ax) (urlUnquote n0) f ∧
      (∀ ax2, ax2 ≠ ax → axisEntries st2 ax2 = axisEntries st ax2) := by
  rcases hs : pySplit k ':' with _ | ⟨a, _ | ⟨b, _ | ⟨c, t⟩⟩⟩
  · simp only [stepParam, hs] at h
    exact Except.noConfusion h
  · simp only [stepParam, hs] at h
    exact Except.noConfusion h
  · by_cases ha : a = "obs"
    · subst ha
      simp only [stepParam, hs, if_true] at h
      cases happ : applySegments (getCurrent st.obs (urlUnquote b)) v with
      | error e =>
        simp only [happ] at h
        exact Except.noConfusion h
      | ok f =>
        simp only [happ] at h
        cases h
        refine ⟨"obs", b, f, rfl, Or.inl rfl, happ, rfl, ?_⟩
        intro ax2 hax
        unfold axisEntries
        rw [if_neg hax, if_neg hax]
    · by_cases hb : a = "var"
      · subst hb
        simp only [stepParam, hs] at h
        rw [if_neg ha, if_pos trivial] at h
        cases happ : applySegments (getCurrent st.var (urlUnquote b)) v with
        | error e =>
          simp only [happ] at h
          exact Except.noConfusion h
        | ok f =>
          simp only [happ] at h
          cases h
          refine ⟨"var", b, f, rfl, Or.inr rfl, happ, rfl, ?_⟩
          intro ax2 hax
          unfold axisEntries
          by_cases h2 : ax2 = "obs"
          · rw [if_pos h2, if_pos h2]
          · rw [if_neg h2, if_neg h2, if_neg hax, if_neg hax]
      · simp only [stepParam, hs] at h
        rw [if_neg ha, if_neg hb] at h
        exact Except.noConfusion h
  · simp only [stepParam, hs] at h
    exact Except.noConfusion h

/-- Helper: a successful step on key `ax:n0` leaves the field tainted:
a one-segment value marks a value-set, a two-segment value marks a
range. -/
theorem stepParam_creates {st st2 : ParseState} {k v ax n0 : String}
    (hs : pySplit k ':' = [ax, n0])
    (h : stepParam st (k, v) = .ok st2) :
    (∀ a, pySplit v ',' = [a] → HasValues st2 ax (urlUnquote n0)) ∧
    (∀ a b, pySplit v ',' = [a, b] → HasRange st2 ax (urlUnquote n0)) := by
  obtain ⟨ax1, n01, f, hs1, hax1, happ, hupd, hother⟩ := stepParam_ok_inv h
  rw [hs] at hs1
  obtain ⟨hax, hn0⟩ : ax = ax1 ∧ n0 = n01 := by
    injection hs1 with h1 h2
    injection h2 with h3 h4
    exact ⟨h1, h3⟩
  subst hax
  subst hn0
  have hname : f.name = urlUnquote n0 :=
    (applySegments_name happ).trans (getCurrent_name _ _)
  have hfind : entryFor st2 ax (urlUnquote n0) = some f := by
    unfold entryFor
    rw [hupd]
    exact find?_setCurrent_self hname
  constructor
  · intro a hsv
    exact ⟨f, hfind, (applySegments_one_ok hsv happ).2.1⟩
  · intro a b hsv
    exact ⟨f, hfind, (applySegments_two_ok hsv happ).2.1⟩

/-- Helper: a successful step preserves an existing value-set or range
taint on any field. -/
theorem stepParam_preserves {st st2 : ParseState} {p : String × String} {ax n : String}
    (h : stepParam st p = .ok st2) :
    (HasValues st ax n → HasValues st2 ax n) ∧
    (HasRange st ax n → HasRange st2 ax n) := by
  obtain ⟨k, v⟩ := p
  obtain ⟨ax1, n01, f, hs1, hax1, happ, hupd, hother⟩ := stepParam_ok_inv h
  by_cases hax : ax = ax1
  case neg =>
    have heq : axisEntries st2 ax = axisEntries st ax := hother ax hax
    have hent : entryFor st2 ax n = entryFor st ax n := by
      unfold entryFor
      rw [heq]
    constructor
    · rintro ⟨f0, hf0, hp0⟩
      exact ⟨f0, by rw [hent]; exact hf0, hp0⟩
    · rintro ⟨f0, hf0, hp0⟩
      exact ⟨f0, by rw [hent]; exact hf0, hp0⟩
  case pos =>
    subst hax
    have hname : f.name = urlUnquote n01 :=
      (applySegments_name happ).trans (getCurrent_name _ _)
    by_cases hmn : urlUnquote n01 = n
    case neg =>
      have hent : entryFor st2 ax n = entryFor st ax n := by
        unfold entryFor
        rw [hupd]
        exact find?_setCurrent_other hname (fun he => hmn he.symm)
      constructor
      · rintro ⟨f0, hf0, hp0⟩
        exact ⟨f0, by rw [hent]; exact hf0, hp0⟩
      · rintro ⟨f0, hf0, hp0⟩
        exact ⟨f0, by rw [hent]; exact hf0, hp0⟩
    case pos =>
      subst hmn
      have hfind : entryFor st2 ax (urlUnquote n01) = some f := by
        unfold entryFor
        rw [hupd]
        exact find?_setCurrent_self hname
      constructor
      · rintro ⟨f0, hf0, hp0⟩
        have hcur : getCurrent (axisEntries st ax) (urlUnquote n01) = f0 := by
          unfold getCurrent
          unfold entryFor at hf0
          rw [hf0]
        rw [hcur] at happ
        rcases hsv : pySplit v ',' with _ | ⟨a, _ | ⟨b, _ | ⟨c, t⟩⟩⟩
        · simp only [applySegments, hsv] at happ
          exact Except.noConfusion happ
        · exact ⟨f, hfind, (applySegments_one_ok hsv happ).2.1⟩
        · have := (applySegments_two_ok hsv happ).2.2.1
          rw [hp0] at this
          exact Bool.noConfusion this
        · simp only [applySegments, hsv] at happ
          exact Except.noConfusion happ
      · rintro ⟨f0, hf0, hp0⟩
        have hcur : getCurrent (axisEntries st ax) (urlUnquote n01) = f0 := by
          unfold getCurrent
          unfold entryFor at hf0
          rw [hf0]
        rw [hcur] at happ
        rcases hsv : pySplit v ',' with _ | ⟨a, _ | ⟨b, _ | ⟨c, t⟩⟩⟩
        · simp only [applySegments, hsv] at happ
          exact Except.noConfusion happ
        · have := (applySegments_one_ok hsv happ).2.2
          rw [hp0] at this
          exact Bool.noConfusion this
        · exact ⟨f, hfind, (applySegments_two_ok hsv happ).2.1⟩
        · simp only [applySegments, hsv] at happ
          exact Except.noConfusion happ

/-- Helper: the loop preserves taints across any successful run. -/
theorem runParams_preserves {l : List (String × String)} {st st2 : ParseState} {ax n : String}
    (h : runParams st l = .ok st2) :
    (HasValues st ax n → HasValues st2 ax n) ∧
    (HasRange st ax n → HasRange st2 ax n) := by
  induction l generalizing st with
  | nil =>
    simp only [runParams] at h
    cases h
    exact ⟨id, id⟩
  | cons p t ih =>
    cases hst : stepParam st p with
    | error e =>
      rw [runParams_cons_error hst] at h
      exact Except.noConfusion h
    | ok st3 =>
      rw [runParams_cons_ok hst] at h
      obtain ⟨hv1, hr1⟩ := @stepParam_preserves st st3 p ax n hst
      obtain ⟨hv2, hr2⟩ := ih h
      exact ⟨fun hx => hv2 (hv1 hx), fun hx => hr2 (hr1 hx)⟩

/-- Helper: a taint on a field makes the opposite parameter kind for that
field fail the loop body. -/
theorem stepParam_kills {st : ParseState} {k v ax n0 : String}
    (hs : pySplit k ':' = [ax, n0])
    (hkill : ((∃ a, pySplit v ',' = [a]) ∧ HasRange st ax (urlUnquote n0)) ∨
             ((∃ a b, pySplit v ',' = [a, b]) ∧
               (HasValues st ax (urlUnquote n0) ∨ HasRange st ax (urlUnquote n0)))) :
    ∃ e, stepParam st (k, v) = .error e := by
  have hf0 : ∃ f0, entryFor st ax (urlUnquote n0) = some f0 ∧
      (f0.values.isSome = true ∨ (f0.min.isSome || f0.max.isSome) = true) := by
    rcases hkill with ⟨_, f0, hf, hp⟩ | ⟨_, (⟨f0, hf, hp⟩ | ⟨f0, hf, hp⟩)⟩
    · exact ⟨f0, hf, Or.inr hp⟩
    · exact ⟨f0, hf, Or.inl hp⟩
    · exact ⟨f0, hf, Or.inr hp⟩
  obtain ⟨f0, hf, hp⟩ := hf0
  have hax : ax = "obs" ∨ ax = "var" := by
    by_contra hcon
    push_neg at hcon
    unfold entryFor axisEntries at hf
    rw [if_neg hcon.1, if_neg hcon.2] at hf
    simp at hf
  have hcur : getCurrent (axisEntries st ax) (urlUnquote n0) = f0 := by
    unfold getCurrent
    unfold entryFor at hf
    rw [hf]
  have happfail : ∃ e, applySegments f0 v = .error e := by
    rcases hkill with ⟨⟨a, hsv⟩, _, hfr, hpr⟩ | ⟨⟨a, b, hsv⟩, _⟩
    · have hfr0 : f0.values.isSome = true ∨ (f0.min.isSome || f0.max.isSome) = true := by
        rw [hf] at hfr
        cases hfr
        exact Or.inr hpr
      have hrange : (f0.min.isSome || f0.max.isSome) = true := by
        rw [hf] at hfr
        cases hfr
        exact hpr
      exact ⟨"do not mix range and value filters",
        by simp only [applySegments, hsv, hrange, if_true]⟩
    · have hsz : 1 < f0.size := one_lt_size hp
      exact ⟨"duplicate range specification",
        by simp only [applySegments, hsv]; rw [if_pos hsz]⟩
  obtain ⟨e, he⟩ := happfail
  rcases hax with hax | hax
  · subst hax
    refine ⟨e, ?_⟩
    simp only [stepParam, hs, if_true]
    have : getCurrent st.obs (urlUnquote n0) = f0 := hcur
    rw [this, he]
  · subst hax
    refine ⟨e, ?_⟩
    simp only [stepParam, hs]
    rw [if_pos trivial]
    have : getCurrent st.var (urlUnquote n0) = f0 := hcur
    rw [this, he]
    rw [if_neg (by decide : ¬ ("var" : String) = "obs")]

/-- Claim C5 (confirmed): for every ordered parameter multimap containing
both a single-segment (value) parameter and a two-segment (range)
parameter for the same `(axis, field)` pair — in either order of arrival
— filter parsing fails with `FilterError`. -/
theorem c5_mixed_value_range_fails
    (pre mid post : List (String × String)) (k1 k2 v1 v2 ax n1 n2 : String)
    (hk1 : pySplit k1 ':' = [ax, n1]) (hk2 : pySplit k2 ':' = [ax, n2])
    (hn : urlUnquote n1 = urlUnquote n2)
    (hseg : ((∃ a, pySplit v1 ',' = [a]) ∧ (∃ a b, pySplit v2 ',' = [a, b])) ∨
            ((∃ a b, pySplit v1 ',' = [a, b]) ∧ (∃ a, pySplit v2 ',' = [a]))) :
    ∃ e, queryParameterToFilter (pre ++ (k1, v1) :: (mid ++ (k2, v2) :: post)) = .error e := by
  apply qptf_error
  cases hpre : runParams ⟨[], []⟩ pre with
  | error e => exact ⟨e, runParams_append_error hpre _⟩
  | ok st0 =>
    cases hstep1 : stepParam st0 (k1, v1) with
    | error e =>
      refine ⟨e, ?_⟩
      rw [runParams_append_ok hpre]
      exact runParams_cons_error hstep1 _
    | ok st1 =>
      have htaint1 : HasValues st1 ax (urlUnquote n1) ∨ HasRange st1 ax (urlUnquote n1) := by
        obtain ⟨hcv, hcr⟩ := stepParam_creates hk1 hstep1
        rcases hseg with ⟨⟨a, ha⟩, _⟩ | ⟨⟨a, b, hab⟩, _⟩
        · exact Or.inl (hcv a ha)
        · exact Or.inr (hcr a b hab)
      cases hmid : runParams st1 mid with
      | error e =>
        refine ⟨e, ?_⟩
        rw [runParams_append_ok hpre, runParams_cons_ok hstep1]
        exact runParams_append_error hmid _
      | ok st2 =>
        have htaint2 : HasValues st2 ax (urlUnquote n1) ∨ HasRange st2 ax (urlUnquote n1) := by
          obtain ⟨hpv, hpr⟩ := @runParams_preserves mid st1 st2 ax (urlUnquote n1) hmid
          rcases htaint1 with h | h
          · exact Or.inl (hpv h)
          · exact Or.inr (hpr h)
        have hkill : ∃ e, stepParam st2 (k2, v2) = .error e := by
          apply stepParam_kills hk2
          rw [← hn]
          rcases hseg with ⟨_, ⟨a, b, hab⟩⟩ | ⟨⟨a0, b0, h2seg⟩, ⟨a, ha⟩⟩
          · exact Or.inr ⟨⟨a, b, hab⟩, htaint2⟩
          · have hr : HasRange st2 ax (urlUnquote n1) := by
              obtain ⟨hcv, hcr⟩ := stepParam_creates hk1 hstep1
              obtain ⟨hpv, hpr⟩ := @runParams_preserves mid st1 st2 ax (urlUnquote n1) hmid
              exact hpr (hcr a0 b0 h2seg)
            exact Or.inl ⟨⟨a, ha⟩, hr⟩
        obtain ⟨e, he⟩ := hkill
        refine ⟨e, ?_⟩
        rw [runParams_append_ok hpre, runParams_cons_ok hstep1,
          runParams_append_ok hmid]
        exact runParams_cons_error he _
      
/-- Witness for claim C5 in both orders of arrival on field `obs:f`. -/
theorem c5_mixed_value_range_fails_witness :
    (∃ e, queryParameterToFilter [("obs:f", "a"), ("obs:f", "1,2")] = .error e) ∧
    (∃ e, queryParameterToFilter [("obs:f", "1,2"), ("obs:f", "a")] = .error e) :=
  ⟨c5_mixed_value_range_fails [] [] [] "obs:f" "obs:f" "a" "1,2" "obs" "f" "f"
      (by decide) (by decide) rfl
      (Or.inl ⟨⟨"a", by decide⟩, ⟨"1", "2", by decide⟩⟩),
   c5_mixed_value_range_fails [] [] [] "obs:f" "obs:f" "1,2" "a" "obs" "f" "f"
      (by decide) (by decide) rfl
      (Or.inr ⟨⟨"1", "2", by decide⟩, ⟨"a", by decide⟩⟩)⟩

end Cellxgene
